import Mathlib

/-! # polytype: registry-dispatched JSON decoding

A verification development for `polytype.go`.  The package keeps a
process-wide table `types` from type names to factories, and a container
`Polytype` whose `UnmarshalJSON` reads the `Type` property of a JSON object,
looks the factory up, and decodes the whole input into the instance the
factory returns; `MarshalJSON` hands the held value to `json.Marshal`.

Embedding.

* The package variable `types` and the receiver `polyType` are passed and
  returned explicitly.
* `encoding/json` and `errors` are not code of this package.  They enter as
  a parameter `Stdlib V E`, so every theorem holds for whatever these
  libraries compute.  One concrete instance, `goJSON`, reads flat JSON
  objects and is used where a statement has to be evaluated.
* A `[]byte` and a Go `string` are a `String`; the receiver of a method is
  a non-nil `*Polytype`.
* `V` is the universe of `interface{}` values and `E` the universe of
  `error` values.  A factory of the registry is a Go `func() interface{}`,
  which may be `nil`; it is `Option (Unit → V)`.  A factory is taken at its
  documented contract (it returns a pointer to a struct it creates), so an
  instance is represented by its content and `json.Unmarshal` into it by a
  function returning the populated content.
* Every operation records, in program order, the library calls, map reads
  and factory calls it performs (`Event`).
-/

namespace polytype

/-! ## Library boundary -/

/-- The functions of `encoding/json` and `errors` the package calls.
`unmarshalTyped data` is `json.Unmarshal(data, &typed)` for a zero
`typed struct { Type string }`: the error, or `typed.Type` afterwards.
`unmarshal data value` is `json.Unmarshal(data, value)`: the error, or the
instance as populated.  `marshal v` is `json.Marshal(v)`: both results.
`errorsNew` is `errors.New`. -/
structure Stdlib (V E : Type) where
  unmarshalTyped : String → Except E String
  unmarshal : String → V → Except E V
  marshal : V → String × Option E
  errorsNew : String → E

/-! ## Data model -/

/-- A value of Go type `func() interface{}`; `none` is the `nil` func. -/
abbrev Factory (V : Type) := Option (Unit → V)

/-- The map type `map[string]func() interface{}`: `r name = none` when
`name` is not a key, `r name = some f` when it is a key holding `f`. -/
abbrev Registry (V : Type) := String → Option (Factory V)

/-- The package variable as initialised:
`var types = make(map[string]func() interface{})`. -/
def types {V : Type} : Registry V := fun _ => none

/-- The map assignment `m[name] = f`. -/
def Registry.assign {V : Type} (m : Registry V) (name : String) (f : Factory V) : Registry V :=
  fun k => if k = name then some f else m k

/-- The container `type Polytype struct { Value interface{} }`. -/
structure Polytype (V : Type) where
  Value : V

/-- What an operation did, in program order. -/
inductive Event where
  /-- The call `json.Unmarshal(data, &typed)`. -/
  | unmarshalTyped (data : String)
  /-- The map read `types[name]`. -/
  | lookup (name : String)
  /-- The call `f()` of the factory read under `name`. -/
  | factory (name : String)
  /-- The call `json.Unmarshal(data, value)`. -/
  | unmarshalValue (data : String)
  /-- The call `json.Marshal(polyType.Value)`. -/
  | marshal
  deriving DecidableEq, Repr

/-- How a call of a function returning `error` ends. -/
inductive Outcome (E : Type) where
  /-- The function returned `nil`. -/
  | ok
  /-- The function returned the non-nil error `err`. -/
  | err (e : E)
  /-- The function did not return: a run-time panic with this message. -/
  | panicked (msg : String)
  deriving DecidableEq, Repr

/-! ## AddType -/

/-- The state after a call of `AddType`: the panic message if it panicked,
and the package variable `types`. -/
structure AddResult (V : Type) where
  panicked : Option String
  types : Registry V

/-- `func AddType(name string, f func() interface{})`. -/
def AddType {V : Type} (types : Registry V) (name : String) (f : Factory V) : AddResult V :=
  match types name with
  | some _ => ⟨some ("polytype: type \"" ++ name ++ "\" has already been added"), types⟩
  | none => ⟨none, types.assign name f⟩

/-- A sequence of `AddType` calls, each run on the table the previous one
left (a call that panics leaves the table as it found it). -/
def AddTypes {V : Type} (types : Registry V) : List (String × Factory V) → Registry V
  | [] => types
  | (name, f) :: rest => AddTypes (AddType types name f).types rest

/-- The factory passed by the first call of a sequence made under `name`. -/
def firstAdded {V : Type} (name : String) : List (String × Factory V) → Option (Factory V)
  | [] => none
  | (n, f) :: rest => if n = name then some f else firstAdded name rest

/-! ## MarshalJSON and UnmarshalJSON -/

/-- The state after `MarshalJSON`: the two results, the receiver, the
package variable and the events. -/
structure MarshalResult (V E : Type) where
  bytes : String
  err : Option E
  polyType : Polytype V
  types : Registry V
  trace : List Event

/-- `func (polyType *Polytype) MarshalJSON() ([]byte, error)`. -/
def MarshalJSON {V E : Type} (lib : Stdlib V E) (types : Registry V) (polyType : Polytype V) :
    MarshalResult V E :=
  ⟨(lib.marshal polyType.Value).1, (lib.marshal polyType.Value).2, polyType, types,
    [Event.marshal]⟩

/-- The state after `UnmarshalJSON`: how the call ended, the receiver, the
package variable and the events. -/
structure UnmarshalResult (V E : Type) where
  ret : Outcome E
  polyType : Polytype V
  types : Registry V
  trace : List Event

/-- `func (polyType *Polytype) UnmarshalJSON(data []byte) error`. -/
def UnmarshalJSON {V E : Type} (lib : Stdlib V E) (types : Registry V) (polyType : Polytype V)
    (data : String) : UnmarshalResult V E :=
  match lib.unmarshalTyped data with
  | .error err => ⟨.err err, polyType, types, [.unmarshalTyped data]⟩
  | .ok typedType =>
    if typedType = "" then
      ⟨.err (lib.errorsNew "type must be specified"), polyType, types, [.unmarshalTyped data]⟩
    else
      match types typedType with
      | none =>
        ⟨.err (lib.errorsNew ("type \"" ++ typedType ++ "\" is not supported")), polyType, types,
          [.unmarshalTyped data, .lookup typedType]⟩
      | some none =>
        ⟨.panicked "runtime error: invalid memory address or nil pointer dereference",
          polyType, types, [.unmarshalTyped data, .lookup typedType, .factory typedType]⟩
      | some (some f) =>
        let value := f ()
        match lib.unmarshal data value with
        | .error err =>
          ⟨.err err, polyType, types,
            [.unmarshalTyped data, .lookup typedType, .factory typedType, .unmarshalValue data]⟩
        | .ok value =>
          ⟨.ok, { polyType with Value := value }, types,
            [.unmarshalTyped data, .lookup typedType, .factory typedType, .unmarshalValue data]⟩


/-! ## A concrete `encoding/json` for flat objects

`goJSON` answers as `encoding/json` does on the inputs it classifies: JSON
objects whose members are strings without escapes or integer literals, and
inputs that end before the object is closed.  On every other input it
answers `GoError.notModelled`.  The concrete Go types are

    type Circle struct { Type string; Radius int }
    type Square struct { Side int }
-/

/-- An `interface{}` value: `nil`, a `*Circle` or a `*Square`, by content. -/
inductive GoValue where
  | nil
  | circle (type : String) (radius : Int)
  | square (side : Int)
  deriving DecidableEq, Repr

/-- An `error` value. -/
inductive GoError where
  /-- The value of `errors.New(s)`. -/
  | errorString (s : String)
  /-- A `*json.SyntaxError`, "unexpected end of JSON input". -/
  | unexpectedEnd
  /-- A `*json.UnmarshalTypeError` for the struct field `field`. -/
  | unmarshalTypeError (field : String)
  /-- A `*json.InvalidUnmarshalError`: the target is `nil`. -/
  | invalidUnmarshalError
  /-- The input or value is outside what `goJSON` classifies. -/
  | notModelled
  deriving DecidableEq, Repr

/-- A member value of a flat object. -/
inductive Member where
  | str (s : String)
  | num (n : Int)
  deriving DecidableEq, Repr

/-- Where the scanner stands in the input. -/
inductive Scan where
  /-- Before the opening brace. -/
  | start
  /-- After the opening brace: a key or the closing brace. -/
  | first
  /-- Inside a key, with its characters so far, last first. -/
  | key (k : List Char)
  /-- After a key: the colon. -/
  | colon (k : String)
  /-- After the colon: the start of a value. -/
  | value (k : String)
  /-- Inside a string value, with its characters so far, last first. -/
  | str (k : String) (v : List Char)
  /-- Inside an integer literal: the sign and the digits read so far. -/
  | num (k : String) (neg : Bool) (n : Option Nat)
  /-- After a value: a comma or the closing brace. -/
  | next
  /-- After a comma: a key. -/
  | comma
  /-- After the closing brace. -/
  | done
  /-- The input left what the scanner classifies. -/
  | bad
  deriving DecidableEq, Repr

/-- The scanner: its position and the members read so far, in input order. -/
structure Scanner where
  st : Scan
  members : List (String × Member)
  deriving DecidableEq, Repr

/-- JSON white space. -/
def isSpace (c : Char) : Bool :=
  c == ' ' || c == '\t' || c == '\n' || c == '\r'

/-- The value of an integer literal from its sign and magnitude. -/
def signed (neg : Bool) (m : Nat) : Int :=
  if neg then -(m : Int) else (m : Int)

/-- One character of input. -/
def Scanner.step (s : Scanner) (c : Char) : Scanner :=
  match s.st with
  | .start =>
    if isSpace c then s else if c = '\x7b' then { s with st := .first } else { s with st := .bad }
  | .first =>
    if isSpace c then s else if c = '"' then { s with st := .key [] }
    else if c = '\x7d' then { s with st := .done } else { s with st := .bad }
  | .key k =>
    if c = '"' then { s with st := .colon (String.mk k.reverse) }
    else if c = '\\' || c.toNat < 32 then { s with st := .bad }
    else { s with st := .key (c :: k) }
  | .colon k =>
    if isSpace c then s else if c = ':' then { s with st := .value k } else { s with st := .bad }
  | .value k =>
    if isSpace c then s else if c = '"' then { s with st := .str k [] }
    else if c = '-' then { s with st := .num k true none }
    else if c.isDigit then { s with st := .num k false (some (c.toNat - 48)) }
    else { s with st := .bad }
  | .str k v =>
    if c = '"' then ⟨.next, s.members ++ [(k, .str (String.mk v.reverse))]⟩
    else if c = '\\' || c.toNat < 32 then { s with st := .bad }
    else { s with st := .str k (c :: v) }
  | .num k neg n =>
    if c.isDigit then
      match n with
      | none => { s with st := .num k neg (some (c.toNat - 48)) }
      | some 0 => { s with st := .bad }
      | some (m + 1) => { s with st := .num k neg (some (10 * (m + 1) + (c.toNat - 48))) }
    else
      match n with
      | none => { s with st := .bad }
      | some m =>
        if isSpace c then ⟨.next, s.members ++ [(k, .num (signed neg m))]⟩
        else if c = ',' then ⟨.comma, s.members ++ [(k, .num (signed neg m))]⟩
        else if c = '\x7d' then ⟨.done, s.members ++ [(k, .num (signed neg m))]⟩
        else { s with st := .bad }
  | .next =>
    if isSpace c then s else if c = ',' then { s with st := .comma }
    else if c = '\x7d' then { s with st := .done } else { s with st := .bad }
  | .comma =>
    if isSpace c then s else if c = '"' then { s with st := .key [] } else { s with st := .bad }
  | .done => if isSpace c then s else { s with st := .bad }
  | .bad => s

/-- The members of a flat JSON object, in input order. -/
def parseObject (data : String) : Except GoError (List (String × Member)) :=
  match (data.toList.foldl Scanner.step ⟨.start, []⟩) with
  | ⟨.done, members⟩ => .ok members
  | ⟨.bad, _⟩ => .error .notModelled
  | _ => .error .unexpectedEnd

/-- Whether the object key `k` selects the struct field `field`: keys match
field names without regard to case. -/
def keyIs (k field : String) : Bool :=
  k.toList.map Char.toLower == field.toList.map Char.toLower

/-- Whether `n` is a value of Go type `int` (64 bits). -/
def fitsInt (n : Int) : Bool :=
  decide (-(2 : Int) ^ 63 ≤ n) && decide (n < (2 : Int) ^ 63)

/-- One member decoded into an `interface{}` target; the first type error is
kept and decoding goes on. -/
def setMember (acc : GoValue × Option GoError) (m : String × Member) : GoValue × Option GoError :=
  match acc.1, m.2 with
  | .circle _ r, .str s =>
    if keyIs m.1 "Type" then (.circle s r, acc.2)
    else if keyIs m.1 "Radius" then
      (acc.1, acc.2.orElse fun _ => some (.unmarshalTypeError "Radius"))
    else acc
  | .circle t _, .num n =>
    if keyIs m.1 "Type" then (acc.1, acc.2.orElse fun _ => some (.unmarshalTypeError "Type"))
    else if keyIs m.1 "Radius" then
      if fitsInt n then (.circle t n, acc.2)
      else (acc.1, acc.2.orElse fun _ => some (.unmarshalTypeError "Radius"))
    else acc
  | .square _, .str _ =>
    if keyIs m.1 "Side" then (acc.1, acc.2.orElse fun _ => some (.unmarshalTypeError "Side"))
    else acc
  | .square _, .num n =>
    if keyIs m.1 "Side" then
      if fitsInt n then (.square n, acc.2)
      else (acc.1, acc.2.orElse fun _ => some (.unmarshalTypeError "Side"))
    else acc
  | .nil, _ => acc

/-- One member decoded into a `struct { Type string }`. -/
def setTyped (acc : String × Option GoError) (m : String × Member) : String × Option GoError :=
  if keyIs m.1 "Type" then
    match m.2 with
    | .str s => (s, acc.2)
    | .num _ => (acc.1, acc.2.orElse fun _ => some (.unmarshalTypeError "Type"))
  else acc

/-- Whether `json.Marshal` writes the character as it is. -/
def isPlain (c : Char) : Bool :=
  decide (32 ≤ c.toNat) && decide (c.toNat < 127) &&
    !(c == '"' || c == '\\' || c == '<' || c == '>' || c == '&')

/-- The instance of the library boundary. -/
def goJSON : Stdlib GoValue GoError where
  unmarshalTyped data :=
    match parseObject data with
    | .error e => .error e
    | .ok members =>
      match members.foldl setTyped ("", none) with
      | (_, some e) => .error e
      | (type, none) => .ok type
  unmarshal data value :=
    match parseObject data with
    | .error e => .error e
    | .ok members =>
      match value with
      | .nil => .error .invalidUnmarshalError
      | target =>
        match members.foldl setMember (target, none) with
        | (_, some e) => .error e
        | (populated, none) => .ok populated
  marshal v :=
    match v with
    | .nil => ("null", none)
    | .circle t r =>
      if t.toList.all isPlain then
        ("\x7b\"Type\":\"" ++ t ++ "\",\"Radius\":" ++ toString r ++ "\x7d", none)
      else ("", some .notModelled)
    | .square s => ("\x7b\"Side\":" ++ toString s ++ "\x7d", none)
  errorsNew := .errorString

/-- The factory `func() interface{} { return &Circle{} }`. -/
def newCircle : Unit → GoValue := fun _ => .circle "" 0

/-- The factory `func() interface{} { return &Square{} }`. -/
def newSquare : Unit → GoValue := fun _ => .square 0

/-- The table after `AddType("circle", newCircle)` and
`AddType("square", newSquare)`. -/
def shapes : Registry GoValue :=
  AddTypes types [("circle", some newCircle), ("square", some newSquare)]

/-! ## Lemmas -/

/-- The table a call of `AddType` leaves, read at any key. -/
lemma addType_types_apply {V : Type} (r : Registry V) (name : String) (f : Factory V)
    (k : String) :
    (AddType r name f).types k =
      match r name with
      | some _ => r k
      | none => if k = name then some f else r k := by
  unfold AddType
  cases r name <;> rfl

/-- The table a sequence of `AddType` calls leaves, read at any key: what the
table held there before, else the factory of the first call under that key. -/
lemma addTypes_apply {V : Type} (calls : List (String × Factory V)) :
    ∀ (r : Registry V) (k : String),
      AddTypes r calls k =
        match r k with
        | some g => some g
        | none => firstAdded k calls := by
  induction calls with
  | nil => intro r k; cases h : r k <;> simp [AddTypes, firstAdded, h]
  | cons c rest ih =>
    intro r k
    obtain ⟨n, f⟩ := c
    simp only [AddTypes, firstAdded]
    rw [ih, addType_types_apply]
    cases hn : r n with
    | some g =>
      cases hk : r k with
      | some g2 => rfl
      | none =>
        have hne : ¬ n = k := fun h => by rw [h, hk] at hn; cases hn
        simp [hne]
    | none =>
      by_cases hkn : k = n
      · subst hkn
        simp [hn]
      · have hnk : ¬ n = k := fun h => hkn h.symm
        simp [hkn, hnk]

/-- A name under which no call of the sequence was made has no first call. -/
lemma firstAdded_eq_none {V : Type} (k : String) (calls : List (String × Factory V))
    (h : ∀ p ∈ calls, p.1 ≠ k) : firstAdded k calls = none := by
  induction calls with
  | nil => rfl
  | cons c rest ih =>
    obtain ⟨n, f⟩ := c
    have hn : ¬ n = k := h (n, f) (List.mem_cons_self _ _)
    simp only [firstAdded, hn, if_false]
    exact ih fun p hp => h p (List.mem_cons_of_mem _ hp)

/-! ### The encoding of a `Square` -/

/-- A decimal digit character is read back as its value. -/
lemma digitChar_isDigit (x : Nat) (hx : x < 10) :
    (Nat.digitChar x).isDigit = true ∧ (Nat.digitChar x).toNat - 48 = x := by
  interval_cases x <;> decide

/-- A decimal digit character is neither white space nor punctuation. -/
lemma digitChar_not_space (x : Nat) (hx : x < 10) : isSpace (Nat.digitChar x) = false := by
  interval_cases x <;> decide

/-- The scanner on the first digit of an integer literal. -/
lemma step_first_digit (k : String) (ms : List (String × Member)) (neg : Bool) (x : Nat)
    (hx : x < 10) :
    Scanner.step (if neg then ⟨.num k true none, ms⟩ else ⟨.value k, ms⟩) (Nat.digitChar x) =
      ⟨.num k neg (some x), ms⟩ := by
  interval_cases x <;> cases neg <;> rfl

/-- The scanner on a further digit of an integer literal. -/
lemma step_next_digit (k : String) (ms : List (String × Member)) (neg : Bool) (m x : Nat)
    (hm : m ≠ 0) (hx : x < 10) :
    Scanner.step ⟨.num k neg (some m), ms⟩ (Nat.digitChar x) =
      ⟨.num k neg (some (10 * m + x)), ms⟩ := by
  obtain ⟨m, rfl⟩ := Nat.exists_eq_succ_of_ne_zero hm
  interval_cases x <;> rfl

/-- The scanner on the decimal digits of `n`, followed by `ds`. -/
lemma foldl_step_toDigitsCore (k : String) (ms : List (String × Member)) (neg : Bool) :
    ∀ (fuel n : Nat) (ds : List Char), n < fuel →
      (Nat.toDigitsCore 10 fuel n ds).foldl Scanner.step
          (if neg then ⟨.num k true none, ms⟩ else ⟨.value k, ms⟩) =
        ds.foldl Scanner.step ⟨.num k neg (some n), ms⟩ := by
  intro fuel
  induction fuel with
  | zero => intro n ds h; omega
  | succ fuel ih =>
    intro n ds h
    have hx : n % 10 < 10 := Nat.mod_lt _ (by decide)
    simp only [Nat.toDigitsCore]
    by_cases h0 : n / 10 = 0
    · have hn : n % 10 = n := Nat.mod_eq_of_lt (by omega)
      simp only [h0, if_true, List.foldl_cons]
      rw [step_first_digit k ms neg _ hx, hn]
    · simp only [h0, if_false]
      rw [ih (n / 10) _ (by omega), List.foldl_cons, step_next_digit k ms neg _ _ h0 hx]
      have : 10 * (n / 10) + n % 10 = n := Nat.div_add_mod n 10
      rw [this]


/-- The digits already produced are a suffix of the result. -/
lemma toDigitsCore_append (fuel : Nat) :
    ∀ (n : Nat) (ds : List Char),
      Nat.toDigitsCore 10 fuel n ds = Nat.toDigitsCore 10 fuel n [] ++ ds := by
  induction fuel with
  | zero => intro n ds; rfl
  | succ fuel ih =>
    intro n ds
    simp only [Nat.toDigitsCore]
    by_cases h0 : n / 10 = 0
    · simp [h0]
    · simp only [h0, if_false]
      rw [ih _ (_ :: ds), ih _ [_]]
      simp

/-- The scanner reads the decimal form of an integer back as that integer. -/
lemma foldl_step_int (k : String) (ms : List (String × Member)) (n : Int) (rest : List Char) :
    ((toString n).toList ++ rest).foldl Scanner.step ⟨.value k, ms⟩ =
      rest.foldl Scanner.step ⟨.num k (decide (n < 0)) (some n.natAbs), ms⟩ := by
  cases n with
  | ofNat m =>
    have h := foldl_step_toDigitsCore k ms false (m + 1) m rest (Nat.lt_succ_self m)
    have e : (toString (Int.ofNat m)).toList = Nat.toDigitsCore 10 (m + 1) m [] := rfl
    rw [e, ← toDigitsCore_append]
    simpa using h
  | negSucc m =>
    have h := foldl_step_toDigitsCore k ms true (m + 2) (m + 1) rest (Nat.lt_succ_self _)
    have e : (toString (Int.negSucc m)).toList =
        '-' :: Nat.toDigitsCore 10 (m + 2) (m + 1) [] := rfl
    rw [e, List.cons_append, ← toDigitsCore_append, List.foldl_cons]
    have hs : Scanner.step ⟨.value k, ms⟩ '-' = ⟨.num k true none, ms⟩ := rfl
    rw [hs]
    have hneg : decide (Int.negSucc m < 0) = true := by simp [Int.negSucc_lt_zero]
    rw [hneg]
    simpa using h

/-- The value read back from sign and magnitude is the integer printed. -/
lemma signed_natAbs (n : Int) : signed (decide (n < 0)) n.natAbs = n := by
  unfold signed
  by_cases h : n < 0
  · simp only [h, decide_True, if_true]
    omega
  · simp only [h, decide_False, Bool.false_eq_true, if_false]
    omega

/-- The members of the encoding of a `Square`. -/
lemma parseObject_square (n : Int) :
    parseObject (goJSON.marshal (.square n)).1 = .ok [("Side", .num n)] := by
  have e : (goJSON.marshal (.square n)).1.toList =
      "\x7b\"Side\":".toList ++ ((toString n).toList ++ ['\x7d']) := by
    simp [goJSON, String.toList]
  have h0 : "\x7b\"Side\":".toList.foldl Scanner.step ⟨.start, []⟩ = ⟨.value "Side", []⟩ := by
    decide
  unfold parseObject
  rw [e, List.foldl_append, h0, foldl_step_int]
  have hx : Scanner.step ⟨.num "Side" (decide (n < 0)) (some n.natAbs), []⟩ '\x7d' =
      ⟨.done, [("Side", .num (signed (decide (n < 0)) n.natAbs))]⟩ := rfl
  simp only [List.foldl_cons, List.foldl_nil, hx, signed_natAbs]


/-- `Square` is faithful to itself: every value of the type is encoded
without error, and its encoding decodes into a new `Square` as that value. -/
lemma square_marshal_unmarshal (n : Int) (h : fitsInt n = true) :
    (goJSON.marshal (.square n)).2 = none ∧
    goJSON.unmarshal (goJSON.marshal (.square n)).1 (newSquare ()) = .ok (.square n) := by
  refine ⟨rfl, ?_⟩
  have hk : keyIs "Side" "Side" = true := by decide
  have hp := parseObject_square n
  simp only [goJSON] at hp
  simp only [goJSON, newSquare, hp, List.foldl_cons, List.foldl_nil, setMember, hk, h, if_true]

/-- The encoding of a `Square` has no discriminator: its discriminator
decode succeeds and leaves the discriminator empty. -/
lemma square_marshal_unmarshalTyped (n : Int) :
    goJSON.unmarshalTyped (goJSON.marshal (.square n)).1 = .ok "" := by
  have hk : keyIs "Side" "Type" = false := by decide
  have hp := parseObject_square n
  simp only [goJSON] at hp
  simp only [goJSON, hp, List.foldl_cons, List.foldl_nil, setTyped, hk]
  rfl

/-! ## Theorems -/

/-- C1: when the discriminator decode of `data` yields a non-empty `D`, `D`
is a key of the table holding the factory `F`, and the decode of the whole
of `data` into `F()` succeeds with `v`, then `UnmarshalJSON` returns `nil`,
the container holds `v`, and the call read the table once, under `D`, and
called the factory read there once. -/
theorem unmarshalJSON_success {V E : Type} (lib : Stdlib V E) (types : Registry V)
    (polyType : Polytype V) (data D : String) (F : Unit → V) (v : V)
    (hD : lib.unmarshalTyped data = .ok D) (hne : D ≠ "")
    (hF : types D = some (some F)) (hv : lib.unmarshal data (F ()) = .ok v) :
    (UnmarshalJSON lib types polyType data).ret = .ok ∧
    (UnmarshalJSON lib types polyType data).polyType.Value = v ∧
    (UnmarshalJSON lib types polyType data).trace =
      [.unmarshalTyped data, .lookup D, .factory D, .unmarshalValue data] := by
  simp [UnmarshalJSON, hD, hne, hF, hv]

/-- The input `{"Type":"circle","Radius":2}` decodes to a `Circle` of
radius 2 through the factory added under "circle". -/
theorem unmarshalJSON_success_witness :
    (UnmarshalJSON goJSON shapes ⟨.nil⟩ "\x7b\"Type\":\"circle\",\"Radius\":2\x7d").ret = .ok ∧
    (UnmarshalJSON goJSON shapes ⟨.nil⟩
      "\x7b\"Type\":\"circle\",\"Radius\":2\x7d").polyType.Value = .circle "circle" 2 ∧
    (UnmarshalJSON goJSON shapes ⟨.nil⟩ "\x7b\"Type\":\"circle\",\"Radius\":2\x7d").trace =
      [.unmarshalTyped "\x7b\"Type\":\"circle\",\"Radius\":2\x7d", .lookup "circle",
        .factory "circle", .unmarshalValue "\x7b\"Type\":\"circle\",\"Radius\":2\x7d"] :=
  unmarshalJSON_success goJSON shapes ⟨.nil⟩ "\x7b\"Type\":\"circle\",\"Radius\":2\x7d"
    "circle" newCircle (.circle "circle" 2) rfl (by decide) rfl rfl

/-- C2: whenever `UnmarshalJSON` does not return `nil` (it returns an error
of any of its four kinds, or the factory call panics), the container holds
the value it held before; so the value differs afterwards only when the call
returned `nil`. -/
theorem unmarshalJSON_atomic {V E : Type} (lib : Stdlib V E) (types : Registry V)
    (polyType : Polytype V) (data : String) :
    ((UnmarshalJSON lib types polyType data).ret ≠ .ok →
      (UnmarshalJSON lib types polyType data).polyType.Value = polyType.Value) ∧
    ((UnmarshalJSON lib types polyType data).polyType.Value ≠ polyType.Value →
      (UnmarshalJSON lib types polyType data).ret = .ok) := by
  have key : (UnmarshalJSON lib types polyType data).ret ≠ .ok →
      (UnmarshalJSON lib types polyType data).polyType.Value = polyType.Value := by
    cases h1 : lib.unmarshalTyped data with
    | error e => simp [UnmarshalJSON, h1]
    | ok D =>
      by_cases hD : D = ""
      · simp [UnmarshalJSON, h1, hD]
      · cases h2 : types D with
        | none => simp [UnmarshalJSON, h1, hD, h2]
        | some f =>
          cases f with
          | none => simp [UnmarshalJSON, h1, hD, h2]
          | some F =>
            cases h3 : lib.unmarshal data (F ()) with
            | error e => simp [UnmarshalJSON, h1, hD, h2, h3]
            | ok v => simp [UnmarshalJSON, h1, hD, h2, h3]
  refine ⟨key, fun h => ?_⟩
  by_contra hret
  exact h (key hret)

/-- A container holding a `Square` of side 7 still holds it after the
truncated input `{"Type":"circle"` is refused. -/
theorem unmarshalJSON_atomic_witness :
    (UnmarshalJSON goJSON shapes ⟨.square 7⟩ "\x7b\"Type\":\"circle\"").ret = .err .unexpectedEnd ∧
    (UnmarshalJSON goJSON shapes ⟨.square 7⟩ "\x7b\"Type\":\"circle\"").polyType.Value =
      .square 7 :=
  ⟨by decide,
    (unmarshalJSON_atomic goJSON shapes ⟨.square 7⟩ "\x7b\"Type\":\"circle\"").1 (by decide)⟩

/-- C3: when the discriminator decode of `data` yields a non-empty `D` that
is not a key of the table, `UnmarshalJSON` returns
`errors.New("type \"" + D + "\" is not supported")`, it calls no factory
(after the discriminator decode it only reads the table under `D`), and the
container holds the value it held before. -/
theorem unmarshalJSON_unsupported {V E : Type} (lib : Stdlib V E) (types : Registry V)
    (polyType : Polytype V) (data D : String)
    (hD : lib.unmarshalTyped data = .ok D) (hne : D ≠ "") (hF : types D = none) :
    (UnmarshalJSON lib types polyType data).ret =
      .err (lib.errorsNew ("type \"" ++ D ++ "\" is not supported")) ∧
    (∀ name, Event.factory name ∉ (UnmarshalJSON lib types polyType data).trace) ∧
    (UnmarshalJSON lib types polyType data).trace = [.unmarshalTyped data, .lookup D] ∧
    (UnmarshalJSON lib types polyType data).polyType.Value = polyType.Value := by
  simp [UnmarshalJSON, hD, hne, hF]

/-- The input `{"Type":"triangle","base":1}` is refused with the message
`type "triangle" is not supported`. -/
theorem unmarshalJSON_unsupported_witness :
    (UnmarshalJSON goJSON shapes ⟨.square 7⟩ "\x7b\"Type\":\"triangle\",\"base\":1\x7d").ret =
      .err (.errorString "type \"triangle\" is not supported") ∧
    (UnmarshalJSON goJSON shapes ⟨.square 7⟩
      "\x7b\"Type\":\"triangle\",\"base\":1\x7d").polyType.Value = .square 7 :=
  have h := unmarshalJSON_unsupported goJSON shapes ⟨.square 7⟩
    "\x7b\"Type\":\"triangle\",\"base\":1\x7d" "triangle" rfl (by decide) rfl
  ⟨h.1, h.2.2.2⟩

/-- C4: when the discriminator decode of `data` succeeds and leaves the
discriminator empty, `UnmarshalJSON` returns
`errors.New("type must be specified")` whatever the table holds (the empty
string may be one of its keys), it neither reads the table nor calls a
factory, and the container holds the value it held before. -/
theorem unmarshalJSON_missing {V E : Type} (lib : Stdlib V E) (types : Registry V)
    (polyType : Polytype V) (data : String)
    (hD : lib.unmarshalTyped data = .ok "") :
    (UnmarshalJSON lib types polyType data).ret =
      .err (lib.errorsNew "type must be specified") ∧
    (UnmarshalJSON lib types polyType data).trace = [.unmarshalTyped data] ∧
    (∀ name, Event.lookup name ∉ (UnmarshalJSON lib types polyType data).trace) ∧
    (∀ name, Event.factory name ∉ (UnmarshalJSON lib types polyType data).trace) ∧
    (UnmarshalJSON lib types polyType data).polyType.Value = polyType.Value := by
  simp [UnmarshalJSON, hD]

/-- With a factory added under the empty name, the input `{"Radius":2}`,
which has no `Type` member, is still refused with `type must be specified`
and the table is not read. -/
theorem unmarshalJSON_missing_witness :
    (AddType shapes "" (some newCircle)).types "" = some (some newCircle) ∧
    (UnmarshalJSON goJSON (AddType shapes "" (some newCircle)).types ⟨.square 7⟩
      "\x7b\"Radius\":2\x7d").ret = .err (.errorString "type must be specified") ∧
    (UnmarshalJSON goJSON (AddType shapes "" (some newCircle)).types ⟨.square 7⟩
      "\x7b\"Radius\":2\x7d").trace = [.unmarshalTyped "\x7b\"Radius\":2\x7d"] ∧
    (UnmarshalJSON goJSON (AddType shapes "" (some newCircle)).types ⟨.square 7⟩
      "\x7b\"Radius\":2\x7d").polyType.Value = .square 7 :=
  have h := unmarshalJSON_missing goJSON (AddType shapes "" (some newCircle)).types ⟨.square 7⟩
    "\x7b\"Radius\":2\x7d" rfl
  ⟨rfl, h.1, h.2.1, h.2.2.2.2⟩

/-- C5: `AddType(name, f)` panics exactly when `name` is already a key of
the table; the panic message is then
`polytype: type "<name>" has already been added`, and the table is left as
it was, so `name` keeps the factory it had. -/
theorem addType_panics_iff {V : Type} (r : Registry V) (name : String) (f : Factory V) :
    ((AddType r name f).panicked ≠ none ↔ r name ≠ none) ∧
    (r name ≠ none →
      (AddType r name f).panicked =
        some ("polytype: type \"" ++ name ++ "\" has already been added") ∧
      (AddType r name f).types = r ∧
      (AddType r name f).types name = r name) := by
  unfold AddType
  cases h : r name <;> simp [h]

/-- Adding "circle" a second time, with another factory, panics with
`polytype: type "circle" has already been added` and "circle" keeps the
factory added first. -/
theorem addType_panics_iff_witness :
    (AddType shapes "circle" (some newSquare)).panicked =
      some "polytype: type \"circle\" has already been added" ∧
    (AddType shapes "circle" (some newSquare)).types = shapes ∧
    (AddType shapes "circle" (some newSquare)).types "circle" = some (some newCircle) :=
  have h := (addType_panics_iff shapes "circle" (some newSquare)).2
    (show shapes "circle" ≠ none from fun h => Option.noConfusion h)
  ⟨h.1, h.2.1, h.2.2⟩

/-- C6: when `name` is not a key of the table, `AddType(name, f)` does not
panic, afterwards `name` holds `f`, and every other name reads as before.
Hence after any sequence of `AddType` calls on the initial table every name
holds the factory of the first call made under it, and a name under which no
call was made is not a key. -/
theorem addType_post {V : Type} (r : Registry V) (name : String) (f : Factory V) :
    (r name = none →
      (AddType r name f).panicked = none ∧
      (AddType r name f).types name = some f ∧
      ∀ k, k ≠ name → (AddType r name f).types k = r k) ∧
    (∀ (calls : List (String × Factory V)) (k : String),
      AddTypes types calls k = firstAdded k calls) ∧
    (∀ (calls : List (String × Factory V)) (k : String),
      (∀ p ∈ calls, p.1 ≠ k) → AddTypes types calls k = none) := by
  refine ⟨fun h => ⟨?_, ?_, ?_⟩, fun calls k => ?_, fun calls k hk => ?_⟩
  · simp [AddType, h]
  · simp [addType_types_apply, h]
  · intro k hk
    simp [addType_types_apply, h, hk]
  · rw [addTypes_apply]
    rfl
  · rw [addTypes_apply]
    exact firstAdded_eq_none k calls hk

/-- Adding "triangle" to the table of circles and squares makes it hold the
new factory and leaves "circle" as it was; and of two calls made under
"circle" the first one counts. -/
theorem addType_post_witness :
    (AddType shapes "triangle" (some newSquare)).panicked = none ∧
    (AddType shapes "triangle" (some newSquare)).types "triangle" = some (some newSquare) ∧
    (AddType shapes "triangle" (some newSquare)).types "circle" = shapes "circle" ∧
    AddTypes (types : Registry GoValue)
      [("circle", some newCircle), ("circle", some newSquare)] "circle" = some (some newCircle) ∧
    AddTypes (types : Registry GoValue)
      [("circle", some newCircle), ("circle", some newSquare)] "square" = none :=
  have h := addType_post shapes "triangle" (some newSquare)
  have h1 := h.1 rfl
  ⟨h1.1, h1.2.1, h1.2.2 "circle" (by decide),
    h.2.1 [("circle", some newCircle), ("circle", some newSquare)] "circle",
    h.2.2 [("circle", some newCircle), ("circle", some newSquare)] "square"
      (fun p hp => by
        simp only [List.mem_cons, List.mem_singleton, List.not_mem_nil, or_false] at hp
        rcases hp with rfl | rfl <;> decide)⟩

/-- C7: `MarshalJSON` returns the bytes and the error of
`json.Marshal(polyType.Value)` as they are, so it fails exactly when that
call fails; it makes that one call and nothing else, and the container holds
the value it held before. -/
theorem marshalJSON_delegates {V E : Type} (lib : Stdlib V E) (r : Registry V)
    (polyType : Polytype V) :
    ((MarshalJSON lib r polyType).bytes, (MarshalJSON lib r polyType).err) =
      lib.marshal polyType.Value ∧
    ((MarshalJSON lib r polyType).err ≠ none ↔ (lib.marshal polyType.Value).2 ≠ none) ∧
    (MarshalJSON lib r polyType).trace = [.marshal] ∧
    (MarshalJSON lib r polyType).polyType = polyType :=
  ⟨rfl, Iff.rfl, rfl, rfl⟩

/-- C8, as stated, fails.  `Square` is `struct { Side int }`.  The input
`{"Type":"square","Side":3}` decodes to a `Square` of side 3; `json.Marshal`
of that value gives `{"Side":3}`, and the decode of `{"Side":3}` into a new
`Square` gives back a `Square` of side 3 (as for every value of the type:
its own encoding and decoding reproduce it).  `MarshalJSON` succeeds with
`{"Side":3}`, and `UnmarshalJSON` of these bytes into a new container
returns `type must be specified` and leaves it empty (as it does for the
encoding of every `Square`). -/
theorem roundTrip_counterexample :
    (UnmarshalJSON goJSON shapes ⟨.nil⟩ "\x7b\"Type\":\"square\",\"Side\":3\x7d").ret = .ok ∧
    (UnmarshalJSON goJSON shapes ⟨.nil⟩
      "\x7b\"Type\":\"square\",\"Side\":3\x7d").polyType.Value = .square 3 ∧
    goJSON.marshal (.square 3) = ("\x7b\"Side\":3\x7d", none) ∧
    goJSON.unmarshal "\x7b\"Side\":3\x7d" (newSquare ()) = .ok (.square 3) ∧
    (∀ n : Int, fitsInt n = true →
      (goJSON.marshal (.square n)).2 = none ∧
      goJSON.unmarshal (goJSON.marshal (.square n)).1 (newSquare ()) = .ok (.square n)) ∧
    (MarshalJSON goJSON shapes ⟨.square 3⟩).bytes = "\x7b\"Side\":3\x7d" ∧
    (MarshalJSON goJSON shapes ⟨.square 3⟩).err = none ∧
    (UnmarshalJSON goJSON shapes ⟨.nil⟩ "\x7b\"Side\":3\x7d").ret =
      .err (.errorString "type must be specified") ∧
    (UnmarshalJSON goJSON shapes ⟨.nil⟩ "\x7b\"Side\":3\x7d").polyType.Value = .nil ∧
    (∀ n : Int, (UnmarshalJSON goJSON shapes ⟨.nil⟩ (goJSON.marshal (.square n)).1).ret =
      .err (.errorString "type must be specified")) := by
  refine ⟨by decide, by decide, by decide, rfl, square_marshal_unmarshal, by decide, by decide,
    by decide, by decide, fun n => ?_⟩
  simp only [UnmarshalJSON, square_marshal_unmarshalTyped, if_true]
  rfl

/-- C8, amended: let a container hold the value of a successful
`UnmarshalJSON` of an input whose discriminator is `D`, registered with the
factory `F`.  If `json.Marshal` of that value succeeds with bytes `b`, the
decode of `b` into `F()` gives the value back, and the discriminator decode
of `b` yields `D` again, then `MarshalJSON` succeeds with `b`, and
`UnmarshalJSON` of `b` into any other container returns `nil` and leaves it
holding an equal value. -/
theorem roundTrip {V E : Type} (lib : Stdlib V E) (r : Registry V)
    (prior fresh : Polytype V) (data D b : String) (F : Unit → V)
    (hD : lib.unmarshalTyped data = .ok D) (hF : r D = some (some F))
    (hok : (UnmarshalJSON lib r prior data).ret = .ok)
    (hm : lib.marshal (UnmarshalJSON lib r prior data).polyType.Value = (b, none))
    (hrt : lib.unmarshal b (F ()) = .ok (UnmarshalJSON lib r prior data).polyType.Value)
    (hb : lib.unmarshalTyped b = .ok D) :
    (MarshalJSON lib r (UnmarshalJSON lib r prior data).polyType).bytes = b ∧
    (MarshalJSON lib r (UnmarshalJSON lib r prior data).polyType).err = none ∧
    (UnmarshalJSON lib r fresh b).ret = .ok ∧
    (UnmarshalJSON lib r fresh b).polyType.Value =
      (UnmarshalJSON lib r prior data).polyType.Value := by
  have hne : D ≠ "" := by
    intro h
    subst h
    simp [UnmarshalJSON, hD] at hok
  refine ⟨?_, ?_, ?_, ?_⟩
  · simp [MarshalJSON, hm]
  · simp [MarshalJSON, hm]
  · simp [UnmarshalJSON, hb, hne, hF, hrt]
  · simp [UnmarshalJSON, hb, hne, hF, hrt]

/-- `Circle` is `struct { Type string; Radius int }`, so its encoding
carries the discriminator: the value decoded from
`{"Radius":2, "Type":"circle"}` is encoded to
`{"Type":"circle","Radius":2}`, which decodes again to an equal value. -/
theorem roundTrip_witness :
    (MarshalJSON goJSON shapes (UnmarshalJSON goJSON shapes ⟨.nil⟩
      "\x7b\"Radius\":2, \"Type\":\"circle\"\x7d").polyType).bytes =
      "\x7b\"Type\":\"circle\",\"Radius\":2\x7d" ∧
    (MarshalJSON goJSON shapes (UnmarshalJSON goJSON shapes ⟨.nil⟩
      "\x7b\"Radius\":2, \"Type\":\"circle\"\x7d").polyType).err = none ∧
    (UnmarshalJSON goJSON shapes ⟨.nil⟩ "\x7b\"Type\":\"circle\",\"Radius\":2\x7d").ret = .ok ∧
    (UnmarshalJSON goJSON shapes ⟨.nil⟩
      "\x7b\"Type\":\"circle\",\"Radius\":2\x7d").polyType.Value = .circle "circle" 2 :=
  have h := roundTrip goJSON shapes ⟨.nil⟩ ⟨.nil⟩ "\x7b\"Radius\":2, \"Type\":\"circle\"\x7d"
    "circle" "\x7b\"Type\":\"circle\",\"Radius\":2\x7d" newCircle rfl rfl (by decide) (by decide)
    rfl rfl
  ⟨h.1, h.2.1, h.2.2.1, h.2.2.2.trans (by decide)⟩

/-- C9: (a) when the discriminator decode of `data` fails with `e`,
`UnmarshalJSON` returns `e` itself, whatever the table holds, and neither
reads the table nor calls a factory; (b) when the discriminator decode
yields a non-empty `D` registered with the factory `F`, and the decode of
the same `data` into `F()` fails with `e`, `UnmarshalJSON` returns `e`
itself, after the discriminator decode, the table read and the factory call
have taken place. -/
theorem unmarshalJSON_propagates {V E : Type} (lib : Stdlib V E) (r : Registry V)
    (polyType : Polytype V) (data : String) :
    (∀ e, lib.unmarshalTyped data = .error e →
      (UnmarshalJSON lib r polyType data).ret = .err e ∧
      (UnmarshalJSON lib r polyType data).trace = [.unmarshalTyped data]) ∧
    (∀ D F e, lib.unmarshalTyped data = .ok D → D ≠ "" → r D = some (some F) →
      lib.unmarshal data (F ()) = .error e →
      (UnmarshalJSON lib r polyType data).ret = .err e ∧
      (UnmarshalJSON lib r polyType data).trace =
        [.unmarshalTyped data, .lookup D, .factory D, .unmarshalValue data]) := by
  refine ⟨fun e he => ?_, fun D F e hD hne hF he => ?_⟩
  · simp [UnmarshalJSON, he]
  · simp [UnmarshalJSON, hD, hne, hF, he]

/-- The truncated input `{"Type":"circle"` is refused with the decoder's
own error at the discriminator decode; `{"Type":"circle","Radius":"x"}`
passes the discriminator decode and is refused with the decoder's type error
for `Radius` at the decode into the new `Circle`. -/
theorem unmarshalJSON_propagates_witness :
    ((UnmarshalJSON goJSON shapes ⟨.nil⟩ "\x7b\"Type\":\"circle\"").ret = .err .unexpectedEnd ∧
      (UnmarshalJSON goJSON shapes ⟨.nil⟩ "\x7b\"Type\":\"circle\"").trace =
        [.unmarshalTyped "\x7b\"Type\":\"circle\""]) ∧
    ((UnmarshalJSON goJSON shapes ⟨.nil⟩ "\x7b\"Type\":\"circle\",\"Radius\":\"x\"\x7d").ret =
        .err (.unmarshalTypeError "Radius") ∧
      (UnmarshalJSON goJSON shapes ⟨.nil⟩ "\x7b\"Type\":\"circle\",\"Radius\":\"x\"\x7d").trace =
        [.unmarshalTyped "\x7b\"Type\":\"circle\",\"Radius\":\"x\"\x7d", .lookup "circle",
          .factory "circle", .unmarshalValue "\x7b\"Type\":\"circle\",\"Radius\":\"x\"\x7d"]) :=
  ⟨(unmarshalJSON_propagates goJSON shapes ⟨.nil⟩ "\x7b\"Type\":\"circle\"").1
      .unexpectedEnd rfl,
    (unmarshalJSON_propagates goJSON shapes ⟨.nil⟩
      "\x7b\"Type\":\"circle\",\"Radius\":\"x\"\x7d").2
      "circle" newCircle (.unmarshalTypeError "Radius") rfl (by decide) rfl rfl⟩

/-- C10: after `UnmarshalJSON`, however it ends, and after `MarshalJSON`,
the table is the table it was before: every name reads as it did, and a name
that was not a key is still not a key. -/
theorem registry_unchanged {V E : Type} (lib : Stdlib V E) (r : Registry V)
    (polyType : Polytype V) (data : String) :
    (UnmarshalJSON lib r polyType data).types = r ∧
    (MarshalJSON lib r polyType).types = r ∧
    (∀ k, (UnmarshalJSON lib r polyType data).types k = r k) ∧
    (∀ k, (MarshalJSON lib r polyType).types k = r k) := by
  have key : (UnmarshalJSON lib r polyType data).types = r := by
    cases h1 : lib.unmarshalTyped data with
    | error e => simp [UnmarshalJSON, h1]
    | ok D =>
      by_cases hD : D = ""
      · simp [UnmarshalJSON, h1, hD]
      · cases h2 : r D with
        | none => simp [UnmarshalJSON, h1, hD, h2]
        | some f =>
          cases f with
          | none => simp [UnmarshalJSON, h1, hD, h2]
          | some F =>
            cases h3 : lib.unmarshal data (F ()) with
            | error e => simp [UnmarshalJSON, h1, hD, h2, h3]
            | ok v => simp [UnmarshalJSON, h1, hD, h2, h3]
  exact ⟨key, rfl, fun k => by rw [key], fun _ => rfl⟩

end polytype
